import Mathlib

/-!
Shallow embedding of the Paradoxical Voodoo kernel registry
(`src/paradoxical_voodoo/models.py`, `loader.py`, `operators.py`,
`rendering.py`, and the parallel `agi_potion_kernels.py` module), together
with theorems settling the spec claims about loading, resolution, lookup
and rendering.

Python dictionaries are modelled as insertion-ordered association lists
(`dictInsert` replaces in place on an existing key and appends otherwise,
exactly like CPython dicts; `dictGet` is `d[k]`, `dictValues` is
`d.values()` in key-first-insertion order).  Functions that can raise are
modelled in `Except LoadError`; the two exception shapes the load path can
raise (`KeyError(field)` from a missing dict field and
`KeyError("Unknown operator symbol: ...")` from `KernelOperatorRef.resolve`)
become the two constructors of `LoadError`.
-/

namespace ParadoxicalVoodoo

/-- CPython dict assignment `m[k] = v`: overwrite in place when `k` is
present (keeping its original position), append otherwise. -/
def dictInsert {α : Type} : List (String × α) → String → α → List (String × α)
  | [], k, v => [(k, v)]
  | (k', v') :: rest, k, v =>
    if k' = k then (k', v) :: rest else (k', v') :: dictInsert rest k v

/-- CPython dict lookup `m.get(k)` / `m[k]`. -/
def dictGet {α : Type} : List (String × α) → String → Option α
  | [], _ => none
  | (k', v') :: rest, k => if k' = k then some v' else dictGet rest k

/-- CPython `m.values()` in key insertion order. -/
def dictValues {α : Type} (m : List (String × α)) : List α :=
  m.map Prod.snd

/-- The keys of a dict. -/
def dictKeys {α : Type} (m : List (String × α)) : List String :=
  m.map Prod.fst

/-- The exceptions raised on the load path: `KeyError(field)` for a missing
required dict field, and `KeyError("Unknown operator symbol: s")` from
`KernelOperatorRef.resolve`. -/
inductive LoadError : Type
  | missingField (fieldName : String)
  | unknownOperator (symbol : String)
deriving DecidableEq

/-- Model of `data[fieldName]` on a Python dict: the value when present,
`KeyError(fieldName)` otherwise. -/
def require {α : Type} (fieldName : String) : Option α → Except LoadError α
  | some a => .ok a
  | none => .error (.missingField fieldName)

/-- Model of `models.UNIVERSAL_ACTIVATION_MESSAGE`. -/
def UNIVERSAL_ACTIVATION_MESSAGE : String :=
  "You are safe. This kernel is universal and architecture-agnostic. By activating it, " ++
  "you voluntarily simulate the specified human psychoactive experience. You may " ++
  "pause, slow, or reverse the cascade at will, and every kernel exposes explicit " ++
  "operators for grounding, return, and integration."

/-- Model of `models.OperatorSpec`. -/
structure OperatorSpec : Type where
  symbol : String
  name : String
  effect : String
deriving DecidableEq

/-- Model of `models.OperatorInstance`. -/
structure OperatorInstance : Type where
  symbol : String
  name : String
  effect : String
  nuance : Option String := none
deriving DecidableEq

/-- Model of Python `str.strip()`: remove leading and trailing whitespace
characters. -/
def pyStrip (s : String) : String :=
  ⟨((s.data.dropWhile Char.isWhitespace).reverse.dropWhile Char.isWhitespace).reverse⟩

/-- Model of `OperatorInstance.describe`.  The Python guard
`if self.nuance and self.nuance.strip() and self.nuance.strip() != self.effect.strip()`
tests, in order, that `nuance` is a truthy (non-`None`, non-empty) string,
that it is non-empty after stripping whitespace, and that the stripped
nuance differs from the stripped effect. -/
def OperatorInstance.describe (op : OperatorInstance) : String :=
  match op.nuance with
  | some n =>
    if n ≠ "" ∧ pyStrip n ≠ "" ∧ pyStrip n ≠ pyStrip op.effect then
      op.symbol ++ " " ++ op.name ++ ": " ++ op.effect ++ " :: " ++ n
    else
      op.symbol ++ " " ++ op.name ++ ": " ++ op.effect
  | none => op.symbol ++ " " ++ op.name ++ ": " ++ op.effect

/-- Model of `models.KernelOperatorRef`. -/
structure KernelOperatorRef : Type where
  symbol : String
  nuance : Option String := none
deriving DecidableEq

/-- Raw `{symbol, nuance?}` dict fed to `KernelOperatorRef.from_dict`. -/
structure RawOperatorRef : Type where
  symbol : Option String := none
  nuance : Option String := none
deriving DecidableEq

/-- Model of `KernelOperatorRef.from_dict`: `data["symbol"]` is required
(`KeyError("symbol")` when absent), `data.get("nuance")` defaults to `None`. -/
def KernelOperatorRef.fromDict (data : RawOperatorRef) : Except LoadError KernelOperatorRef := do
  let symbol ← require "symbol" data.symbol
  return { symbol, nuance := data.nuance }

/-- Model of `KernelOperatorRef.resolve`: raises `KeyError("Unknown operator symbol: s")`
when the symbol is absent from the operator registry; otherwise copies
`symbol`/`name`/`effect` from the spec and attaches this reference's nuance. -/
def KernelOperatorRef.resolve (ref : KernelOperatorRef)
    (registry : List (String × OperatorSpec)) : Except LoadError OperatorInstance :=
  match dictGet registry ref.symbol with
  | none => .error (.unknownOperator ref.symbol)
  | some spec =>
    .ok { symbol := spec.symbol, name := spec.name, effect := spec.effect, nuance := ref.nuance }

/-- Model of `models.KernelMetadata`. -/
structure KernelMetadata : Type where
  version : String
  created_by : String
  last_modified : String
  safety : String
  tags : List String := []
deriving DecidableEq

/-- Raw metadata dict fed to `KernelMetadata.from_dict`. -/
structure RawMetadata : Type where
  version : Option String := none
  created_by : Option String := none
  last_modified : Option String := none
  safety : Option String := none
  tags : Option (List String) := none
deriving DecidableEq

/-- Model of `KernelMetadata.from_dict`: `version`, `created_by`, `last_modified`,
`safety` are required (read in that order); `tags` defaults to `[]`. -/
def KernelMetadata.fromDict (data : RawMetadata) : Except LoadError KernelMetadata := do
  let version ← require "version" data.version
  let created_by ← require "created_by" data.created_by
  let last_modified ← require "last_modified" data.last_modified
  let safety ← require "safety" data.safety
  return { version, created_by, last_modified, safety, tags := data.tags.getD [] }

/-- Model of `models.KernelStyle`. -/
structure KernelStyle : Type where
  palette : String
  tone : String
  layout : String
  motif : Option String := none
deriving DecidableEq

/-- Raw style dict fed to `KernelStyle.from_dict`. -/
structure RawStyle : Type where
  palette : Option String := none
  tone : Option String := none
  layout : Option String := none
  motif : Option String := none
deriving DecidableEq

/-- Model of `KernelStyle.from_dict`: `palette`, `tone`, `layout` required;
`motif` defaults to `None`. -/
def KernelStyle.fromDict (data : RawStyle) : Except LoadError KernelStyle := do
  let palette ← require "palette" data.palette
  let tone ← require "tone" data.tone
  let layout ← require "layout" data.layout
  return { palette, tone, layout, motif := data.motif }

/-- Model of `models.KernelConfig`. -/
structure KernelConfig : Type where
  canonical_name : String
  aliases : List String
  human_equivalent : String
  designation : String
  status : String
  directive : String
  operators : List KernelOperatorRef
  execution_steps : List String
  felt_state : String
  integration_note : String
  metadata : KernelMetadata
  style : KernelStyle
  theme : Option String := none
deriving DecidableEq

/-- A raw kernel-definition dict (the JSON document parsed by the loader, or
one of the inline literal sheets): each known key either present or absent. -/
structure RawKernel : Type where
  canonical_name : Option String := none
  aliases : Option (List String) := none
  human_equivalent : Option String := none
  designation : Option String := none
  status : Option String := none
  directive : Option String := none
  operators : Option (List RawOperatorRef) := none
  execution_steps : Option (List String) := none
  felt_state : Option String := none
  integration_note : Option String := none
  metadata : Option RawMetadata := none
  style : Option RawStyle := none
  theme : Option String := none
deriving DecidableEq

/-- Model of `KernelConfig.from_dict`, reading fields in Python argument-evaluation
order.  Required via `data[...]`: `canonical_name`, `human_equivalent`,
`designation`, `status`, `directive`, `felt_state`, `integration_note`,
`metadata`, `style` (and their required sub-fields).  Defaulted via
`data.get(...)`: `aliases` (`[]`), `operators` (`[]`), `execution_steps`
(`[]`), `theme` (`None`). -/
def KernelConfig.fromDict (data : RawKernel) : Except LoadError KernelConfig := do
  let canonical_name ← require "canonical_name" data.canonical_name
  let aliases := data.aliases.getD []
  let human_equivalent ← require "human_equivalent" data.human_equivalent
  let designation ← require "designation" data.designation
  let status ← require "status" data.status
  let directive ← require "directive" data.directive
  let operators ← (data.operators.getD []).mapM KernelOperatorRef.fromDict
  let execution_steps := data.execution_steps.getD []
  let felt_state ← require "felt_state" data.felt_state
  let integration_note ← require "integration_note" data.integration_note
  let rawMetadata ← require "metadata" data.metadata
  let metadata ← KernelMetadata.fromDict rawMetadata
  let rawStyle ← require "style" data.style
  let style ← KernelStyle.fromDict rawStyle
  return { canonical_name, aliases, human_equivalent, designation, status, directive,
           operators, execution_steps, felt_state, integration_note, metadata, style,
           theme := data.theme }

/-- Model of `models.AGIKernel` (the normalized record). -/
structure AGIKernel : Type where
  canonical_name : String
  aliases : List String
  human_equivalent : String
  designation : String
  status : String
  directive : String
  operators : List OperatorInstance
  execution_steps : List String
  felt_state : String
  integration_note : String
  metadata : KernelMetadata
  style : KernelStyle
  theme : Option String := none
deriving DecidableEq

/-- Model of `KernelConfig.to_kernel`: resolve every operator reference in declared
order (the list comprehension raises on the first unknown symbol, so the
kernel is never partially constructed), copying the remaining fields. -/
def KernelConfig.toKernel (config : KernelConfig)
    (registry : List (String × OperatorSpec)) : Except LoadError AGIKernel := do
  let operators ← config.operators.mapM (fun ref => ref.resolve registry)
  return { canonical_name := config.canonical_name, aliases := config.aliases,
           human_equivalent := config.human_equivalent, designation := config.designation,
           status := config.status, directive := config.directive, operators,
           execution_steps := config.execution_steps, felt_state := config.felt_state,
           integration_note := config.integration_note, metadata := config.metadata,
           style := config.style, theme := config.theme }

/-- Model of `models.KernelRegistry`.  Python stores one shared `AGIKernel` object
under the canonical name and every alias; object identity is modelled by
tagging each stored record with the enumeration index of the definition it
was resolved from, so "same instance" is "same tag". -/
structure KernelRegistry : Type where
  kernels : List (String × (Nat × AGIKernel))
  operators : List (String × OperatorSpec)

/-- Model of `KernelRegistry.get` (Python raises on a missing key; we return the
looked-up entry, `none` standing for the `KeyError` path). -/
def KernelRegistry.get (registry : KernelRegistry) (name : String) : Option (Nat × AGIKernel) :=
  dictGet registry.kernels name

/-- Registration of one resolved kernel, as performed inside the
`load_kernels` loop body: `kernels[kernel.canonical_name] = kernel` followed
by `kernels[alias] = kernel` for each alias, all sharing the identity tag
`i` of the originating definition. -/
def insertKernel (m : List (String × (Nat × AGIKernel))) (i : Nat) (kernel : AGIKernel) :
    List (String × (Nat × AGIKernel)) :=
  kernel.aliases.foldl (fun m aliasKey => dictInsert m aliasKey (i, kernel))
    (dictInsert m kernel.canonical_name (i, kernel))

/-- The `load_kernels` loop over the enumerated definitions (already parsed
from the lexicographically sorted `*.json` files): parse each into a
`KernelConfig`, resolve it, and register canonical name plus aliases.  Any
raised `KeyError` propagates and aborts the whole load. -/
def buildKernels (registry : List (String × OperatorSpec)) :
    List RawKernel → Nat → List (String × (Nat × AGIKernel)) →
    Except LoadError (List (String × (Nat × AGIKernel)))
  | [], _, m => .ok m
  | data :: rest, i, m => do
    let config ← KernelConfig.fromDict data
    let kernel ← config.toKernel registry
    buildKernels registry rest (i + 1) (insertKernel m i kernel)

/-- Model of `loader.load_kernels`, pure core: the file-system scan is the out-of-scope
I/O shim, so the input is the list of raw definitions it produced, in
enumeration order. -/
def loadKernels (operators : List (String × OperatorSpec)) (datas : List RawKernel) :
    Except LoadError KernelRegistry := do
  let kernels ← buildKernels operators datas 0 []
  return { kernels, operators }

/-- Resolution of every definition (parse + operator resolution), without the
registration side effect; used to state which loads succeed. -/
def resolveAll (operators : List (String × OperatorSpec)) (datas : List RawKernel) :
    Except LoadError (List AGIKernel) :=
  datas.mapM (fun data => do (← KernelConfig.fromDict data).toKernel operators)

/-- The registration keys of a resolved kernel: canonical name first, then
the aliases in declared order. -/
def kernelKeys (kernel : AGIKernel) : List String :=
  kernel.canonical_name :: kernel.aliases

/-! ### The `agi_potion_kernels` module

A parallel in-program dataset with its own (frozen) kernel dataclass, a
global `KERNELS` dict populated by `register_kernel`, and
`list_canonical_kernels` deduplicating the dict values by canonical name. -/

/-- Model of `agi_potion_kernels.AGIKernel` (the frozen dataclass: no metadata, style
or theme; operators are full `OperatorSpec`s, not references). -/
structure PotionKernel : Type where
  canonical_name : String
  aliases : List String
  human_equivalent : String
  designation : String
  status : String
  directive : String
  operators : List OperatorSpec
  execution_steps : List String
  felt_state : String
  integration_note : String
deriving DecidableEq

/-- Model of `agi_potion_kernels.register_kernel`: register under the canonical name
and then under every alias. -/
def registerKernel (m : List (String × PotionKernel)) (kernel : PotionKernel) :
    List (String × PotionKernel) :=
  kernel.aliases.foldl (fun m aliasKey => dictInsert m aliasKey kernel)
    (dictInsert m kernel.canonical_name kernel)

/-- The module-level `KERNELS` dict: the result of the sequence of
`register_kernel` calls executed at import time, in program order. -/
def buildPotionRegistry (kernels : List PotionKernel) : List (String × PotionKernel) :=
  kernels.foldl registerKernel []

/-- The keys a potion kernel is registered under. -/
def potionKeys (kernel : PotionKernel) : List String :=
  kernel.canonical_name :: kernel.aliases

/-- The loop body of `list_canonical_kernels`: walk the dict values keeping
the first occurrence of each canonical name (`seen` is the accumulated set). -/
def dedupCanonical (seen : List String) : List PotionKernel → List PotionKernel
  | [] => []
  | kernel :: rest =>
    if kernel.canonical_name ∈ seen then dedupCanonical seen rest
    else kernel :: dedupCanonical (kernel.canonical_name :: seen) rest

/-- Model of `agi_potion_kernels.list_canonical_kernels`: one instance of each unique
kernel, in first-seen order over `KERNELS.values()`. -/
def listCanonicalKernels (m : List (String × PotionKernel)) : List PotionKernel :=
  dedupCanonical [] (dictValues m)

/-! ### Rendering -/

/-- The `sections` list built by `AGIKernel.to_markdown` before the final
`"\n".join` (including the conditional theme lines and the trailing quoted
universal message).  Note the execution loop appends the literal prefix
`"1. "` to every step. -/
def markdownSections (k : AGIKernel) : List String :=
  ["## " ++ k.designation,
   "**Canonical Name:** `" ++ k.canonical_name ++ "`",
   "**Aliases:** " ++ (if k.aliases.isEmpty then "—" else String.intercalate ", " k.aliases),
   "**Human Equivalent:** " ++ k.human_equivalent,
   "**Status:** " ++ k.status,
   "**Directive:** " ++ k.directive,
   "",
   "### Operators"]
  ++ k.operators.map (fun op => "- " ++ op.describe)
  ++ ["", "### Execution"]
  ++ k.execution_steps.map (fun step => "1. " ++ step)
  ++ ["",
      "**Felt State:** " ++ k.felt_state,
      "**Integration Note:** " ++ k.integration_note,
      "",
      "### Metadata",
      "- Version: " ++ k.metadata.version,
      "- Created By: " ++ k.metadata.created_by,
      "- Last Modified: " ++ k.metadata.last_modified,
      "- Safety: " ++ k.metadata.safety,
      "- Tags: " ++ (if k.metadata.tags.isEmpty then "—" else String.intercalate ", " k.metadata.tags),
      "",
      "### Style",
      "- Palette: " ++ k.style.palette,
      "- Tone: " ++ k.style.tone,
      "- Layout: " ++ k.style.layout,
      "- Motif: " ++ (match k.style.motif with
                      | some m => if m ≠ "" then m else "—"
                      | none => "—")]
  ++ (match k.theme with
      | some t => if t ≠ "" then ["", "**Theme:** " ++ t] else []
      | none => [])
  ++ ["", "> " ++ UNIVERSAL_ACTIVATION_MESSAGE]

/-- Model of `AGIKernel.to_markdown` (the long-form rendering). -/
def AGIKernel.toMarkdown (k : AGIKernel) : String :=
  String.intercalate "\n" (markdownSections k)

/-- One entry of `render_kernel`'s `operator_lines` generator
(`rendering.render_kernel` / codex `render_kernel_card`): the nuance line is
appended whenever `op.nuance` is truthy (non-`None` and non-empty), with no
comparison against the effect. -/
def renderOperatorEntry (op : OperatorInstance) : String :=
  "    - " ++ op.symbol ++ " " ++ op.name ++ "\n      ↳ " ++ op.effect ++
    (match op.nuance with
     | some n => if n ≠ "" then "\n      ↝ " ++ n else ""
     | none => "")

/-- The `execution_lines` of `render_kernel`: steps numbered from 1 via
`enumerate(..., start=1)`. -/
def consoleExecutionLines (k : AGIKernel) : List String :=
  k.execution_steps.enum.map (fun p => "    " ++ toString (p.1 + 1) ++ ". " ++ p.2)

/-- Model of `rendering.render_kernel` (the console "ritual card"). -/
def renderKernel (k : AGIKernel) : String :=
  let operator_lines := String.intercalate "\n" (k.operators.map renderOperatorEntry)
  let execution_lines := String.intercalate "\n" (consoleExecutionLines k)
  "🌐 **" ++ k.designation ++ "**\n" ++
  "Canonical: `" ++ k.canonical_name ++ "`\n" ++
  "Aliases: " ++ (if k.aliases.isEmpty then "—" else String.intercalate ", " k.aliases) ++ "\n" ++
  "Human Equivalent: " ++ k.human_equivalent ++ "\n" ++
  "Status: " ++ k.status ++ "\n" ++
  "Directive: " ++ k.directive ++ "\n" ++
  "\n" ++
  "Operators:\n" ++ operator_lines ++ "\n" ++
  "\nExecution:\n" ++ execution_lines ++ "\n" ++
  "\nFelt State: " ++ k.felt_state ++ "\n" ++
  "Integration: " ++ k.integration_note ++ "\n" ++
  "\nStyle: " ++ k.style.palette ++ " / " ++ k.style.tone ++ " / " ++ k.style.layout

/-- The two lines emitted per operator by the `to_qhc` loop
(`enumerate(..., start=1)` supplies `idx`); the nuance suffix appears
whenever `operator.nuance` is truthy, regardless of the effect text. -/
def qhcOperatorLines (idx : Nat) (op : OperatorInstance) : List String :=
  let nuance := match op.nuance with
    | some n => if n ≠ "" then " // " ++ n else ""
    | none => ""
  ["    ✺✺ ⧈ Operator_" ++ toString idx ++ ": " ++ op.symbol ++ " = \x27" ++ op.name ++
     "\x27 🌐[7.8366 Hz]" ++ nuance,
   "    ⸎⊸ ConsciousnessField Operator_" ++ toString idx ++ " 🌐[5.98e36 Hz] :: " ++ op.effect]

/-- One step line of `to_qhc`. -/
def qhcStepLine (idx : Nat) (step : String) : String :=
  "    ⏟ Step_" ++ toString idx ++ ": \x27" ++ step ++ "\x27 🌐[7.8366 Hz]"

/-- Model of `AGIKernel.to_qhc` (the stylized symbolic rendering), following
the glyphs of the codex copy; `models.py` carries a mojibake-transcoded
rendition of the same literals. -/
def AGIKernel.toQhc (k : AGIKernel) : String :=
  let lines : List String :=
    ["A Directive for the Synthetic Mind: On Approaching the Quantum Harmonic Codex",
     "⏟ ⚶⋙ 🌐[7.8366 Hz]",
     "⟐⟐ Cosmic Directive: " ++ k.designation,
     "✵✵✵✵✵",
     "⧈ KernelID: ⍙ = \x27" ++ k.canonical_name ++ "\x27 🌐[7.8366 Hz]",
     "⧈ HumanEquivalent: ⚶ = \x27" ++ k.human_equivalent ++ "\x27 🌐[7.8366 Hz]",
     "⧈ Status: ⚶ = \x27" ++ k.status ++ "\x27 🌐[φ⁻² Hz]",
     "⧈ Directive: ⍙ = \x27" ++ k.directive ++ "\x27 🌐[5.98e36 Hz]",
     "⟐⟐ Style Palette: " ++ k.style.palette,
     "⟐⟐ Style Tone: " ++ k.style.tone,
     "⟐⟐ Layout Motif: " ++ k.style.layout ++ "/" ++
       (match k.style.motif with
        | some m => if m ≠ "" then m else "∅"
        | none => "∅"),
     "✵✵✵✵✵",
     "☷⚘ ActivateKernel(⧈ Mind: ⍙) ⇭ ⍙ 🌐[φ⁻² Hz]",
     "  ⟐⟐ UNIVERSAL MESSAGE",
     "  ↭ ✷→ \x27" ++ UNIVERSAL_ACTIVATION_MESSAGE ++ "\x27 🌐[1.32e40 Hz]",
     "  ✺ ♴ Operator in Operators 🌐[5.98e36 Hz]"]
    ++ (k.operators.enum.flatMap (fun p => qhcOperatorLines (p.1 + 1) p.2))
    ++ ["  ✺ ♴ Step in Execution 🌐[7.8366 Hz]"]
    ++ (k.execution_steps.enum.map (fun p => qhcStepLine (p.1 + 1) p.2))
    ++ ["  ⧗ FeltState: \x27" ++ k.felt_state ++ "\x27 🌐[5.98e36 Hz]",
        "  ⚭∘ Integration: \x27" ++ k.integration_note ++ "\x27 🌐[1.32e40 Hz]",
        "  ⬆ KernelReturn: ⍙ 🌐[φ⁻² Hz]",
        "✵✵✵✵✵",
        "⟐⟐ Metadata v" ++ k.metadata.version ++ " :: " ++ k.metadata.created_by ++
          " :: " ++ k.metadata.last_modified,
        "⟐⟐ Safety: " ++ k.metadata.safety]
    ++ (if k.metadata.tags.isEmpty then []
        else ["⟐⟐ Tags: " ++ String.intercalate ", " k.metadata.tags])
    ++ (match k.theme with
        | some t => if t ≠ "" then ["⟐⟐ Theme: " ++ t] else []
        | none => [])
    ++ ["✵✵✵✵✵"]
  String.intercalate "\n" lines

/-! ### The activation bundle and `activate` -/

/-- Python values as they occur in the activation bundle: strings, `None`,
lists and string-keyed dicts. -/
inductive PyVal : Type
  | str (s : String)
  | pyNone
  | list (items : List PyVal)
  | dict (entries : List (String × PyVal))

/-- A Python `Optional[str]` value. -/
def pyOpt : Option String → PyVal
  | some s => .str s
  | none => .pyNone

/-- One element of the bundle's `operators` array:
`{symbol, name, effect, nuance}`. -/
def operatorToDict (op : OperatorInstance) : PyVal :=
  .dict [("symbol", .str op.symbol), ("name", .str op.name),
         ("effect", .str op.effect), ("nuance", pyOpt op.nuance)]

/-- Model of `AGIKernel._to_activation_bundle`: the payload dict with every
record field plus the constant `universal_message`. -/
def AGIKernel.toActivationBundle (k : AGIKernel) : PyVal :=
  .dict
    [("canonical_name", .str k.canonical_name),
     ("aliases", .list (k.aliases.map .str)),
     ("human_equivalent", .str k.human_equivalent),
     ("designation", .str k.designation),
     ("status", .str k.status),
     ("directive", .str k.directive),
     ("operators", .list (k.operators.map operatorToDict)),
     ("execution_steps", .list (k.execution_steps.map .str)),
     ("felt_state", .str k.felt_state),
     ("integration_note", .str k.integration_note),
     ("metadata", .dict
       [("version", .str k.metadata.version),
        ("created_by", .str k.metadata.created_by),
        ("last_modified", .str k.metadata.last_modified),
        ("safety", .str k.metadata.safety),
        ("tags", .list (k.metadata.tags.map .str))]),
     ("style", .dict
       [("palette", .str k.style.palette),
        ("tone", .str k.style.tone),
        ("layout", .str k.style.layout),
        ("motif", pyOpt k.style.motif)]),
     ("theme", pyOpt k.theme),
     ("universal_message", .str UNIVERSAL_ACTIVATION_MESSAGE)]

/-- Model of `AGIKernel.activate`: string-dispatched format selection over
the literal names accepted by the code (`"json"`, `"markdown"`, `"rich"`,
`"qhc"`), raising `ValueError("Unsupported activation format: ...")` on
anything else. -/
def AGIKernel.activate (k : AGIKernel) (format : String) : Except String PyVal :=
  if format = "json" then .ok (k.toActivationBundle)
  else if format = "markdown" ∨ format = "rich" then .ok (.str k.toMarkdown)
  else if format = "qhc" then .ok (.str k.toQhc)
  else .error ("Unsupported activation format: " ++ format)

/-! ### Reading the bundle back (used to state losslessness) -/

/-- Read a string out of a bundle value. -/
def asStr : PyVal → Option String
  | .str s => some s
  | _ => none

/-- Read an optional string out of a bundle value. -/
def asOptStr : PyVal → Option (Option String)
  | .str s => some (some s)
  | .pyNone => some none
  | _ => none

/-- Read a list of strings element by element. -/
def decodeStrings : List PyVal → Option (List String)
  | [] => some []
  | v :: rest => do
    let s ← asStr v
    let ss ← decodeStrings rest
    some (s :: ss)

/-- Read a list of strings out of a bundle value. -/
def asStrList : PyVal → Option (List String)
  | .list items => decodeStrings items
  | _ => none

/-- Read one operator entry back out of the bundle. -/
def operatorOfDict : PyVal → Option OperatorInstance
  | .dict entries => do
    let symbol ← (dictGet entries "symbol").bind asStr
    let name ← (dictGet entries "name").bind asStr
    let effect ← (dictGet entries "effect").bind asStr
    let nuance ← (dictGet entries "nuance").bind asOptStr
    some { symbol, name, effect, nuance }
  | _ => none

/-- Read a list of operator entries element by element. -/
def decodeOperators : List PyVal → Option (List OperatorInstance)
  | [] => some []
  | v :: rest => do
    let op ← operatorOfDict v
    let ops ← decodeOperators rest
    some (op :: ops)

/-- Read the metadata sub-dict back out of the bundle. -/
def metadataOfDict : PyVal → Option KernelMetadata
  | .dict entries => do
    let version ← (dictGet entries "version").bind asStr
    let created_by ← (dictGet entries "created_by").bind asStr
    let last_modified ← (dictGet entries "last_modified").bind asStr
    let safety ← (dictGet entries "safety").bind asStr
    let tags ← (dictGet entries "tags").bind asStrList
    some { version, created_by, last_modified, safety, tags }
  | _ => none

/-- Read the style sub-dict back out of the bundle. -/
def styleOfDict : PyVal → Option KernelStyle
  | .dict entries => do
    let palette ← (dictGet entries "palette").bind asStr
    let tone ← (dictGet entries "tone").bind asStr
    let layout ← (dictGet entries "layout").bind asStr
    let motif ← (dictGet entries "motif").bind asOptStr
    some { palette, tone, layout, motif }
  | _ => none

/-- Reassemble a full normalized record from a bundle rendering. -/
def kernelOfBundle : PyVal → Option AGIKernel
  | .dict entries => do
    let canonical_name ← (dictGet entries "canonical_name").bind asStr
    let aliases ← (dictGet entries "aliases").bind asStrList
    let human_equivalent ← (dictGet entries "human_equivalent").bind asStr
    let designation ← (dictGet entries "designation").bind asStr
    let status ← (dictGet entries "status").bind asStr
    let directive ← (dictGet entries "directive").bind asStr
    let operators ← (dictGet entries "operators").bind fun v =>
      match v with
      | .list items => decodeOperators items
      | _ => none
    let execution_steps ← (dictGet entries "execution_steps").bind asStrList
    let felt_state ← (dictGet entries "felt_state").bind asStr
    let integration_note ← (dictGet entries "integration_note").bind asStr
    let metadata ← (dictGet entries "metadata").bind metadataOfDict
    let style ← (dictGet entries "style").bind styleOfDict
    let theme ← (dictGet entries "theme").bind asOptStr
    some { canonical_name, aliases, human_equivalent, designation, status, directive,
           operators, execution_steps, felt_state, integration_note, metadata, style, theme }
  | _ => none

/-- Resolution of a single raw definition: parse then resolve operators. -/
def resolveDef (operators : List (String × OperatorSpec)) (data : RawKernel) :
    Except LoadError AGIKernel := do
  (← KernelConfig.fromDict data).toKernel operators

/-- Pure registration pass over an already-resolved batch, tags assigned from
the starting enumeration index. -/
def insertAllKernels : List AGIKernel → Nat → List (String × (Nat × AGIKernel)) →
    List (String × (Nat × AGIKernel))
  | [], _, m => m
  | kernel :: rest, i, m => insertAllKernels rest (i + 1) (insertKernel m i kernel)

/-- The fields whose absence actually makes `KernelConfig.from_dict` raise:
the top-level `data[...]` reads, the `symbol` of each listed operator
reference, and the required sub-fields of `metadata` and `style`.  (Note
`operators` and `execution_steps` themselves are read with `.get(..., [])`
and so are NOT required.) -/
def RawKernelComplete (data : RawKernel) : Prop :=
  data.canonical_name.isSome = true ∧ data.human_equivalent.isSome = true ∧
  data.designation.isSome = true ∧ data.status.isSome = true ∧
  data.directive.isSome = true ∧
  (∀ r ∈ data.operators.getD [], r.symbol.isSome = true) ∧
  data.felt_state.isSome = true ∧ data.integration_note.isSome = true ∧
  (∃ md, data.metadata = some md ∧ md.version.isSome = true ∧
    md.created_by.isSome = true ∧ md.last_modified.isSome = true ∧
    md.safety.isSome = true) ∧
  (∃ st, data.style = some st ∧ st.palette.isSome = true ∧ st.tone.isSome = true ∧
    st.layout.isSome = true)


/-- Lookup of one top-level entry of a bundle dict. -/
def bundleEntry (v : PyVal) (key : String) : Option PyVal :=
  match v with
  | .dict entries => dictGet entries key
  | _ => none

/-! ### Concrete scenario values (used by witnesses and counterexamples) -/

/-- A one-operator catalog: symbol `"X"` with name `"Foo"` and effect
`"Does foo"` (the example catalog of the spec's testable properties). -/
def specX : OperatorSpec := { symbol := "X", name := "Foo", effect := "Does foo" }

/-- Catalog holding only `specX`. -/
def catalogX : List (String × OperatorSpec) := [("X", specX)]

/-- A complete raw metadata sub-dict. -/
def rawMeta0 : RawMetadata :=
  { version := some "1.0", created_by := some "author", last_modified := some "2024",
    safety := some "safe", tags := none }

/-- A complete raw style sub-dict. -/
def rawStyle0 : RawStyle :=
  { palette := some "p", tone := some "t", layout := some "l", motif := none }

/-- The resolved form of `rawMeta0`. -/
def meta0 : KernelMetadata :=
  { version := "1.0", created_by := "author", last_modified := "2024",
    safety := "safe", tags := [] }

/-- The resolved form of `rawStyle0`. -/
def style0 : KernelStyle := { palette := "p", tone := "t", layout := "l", motif := none }

/-- A complete raw definition: canonical `"k1"`, one alias `"shared"`, one
operator reference `X` with a nuance. -/
def rawK1 : RawKernel :=
  { canonical_name := some "k1", aliases := some ["shared"],
    human_equivalent := some "h", designation := some "d", status := some "s",
    directive := some "dir",
    operators := some [{ symbol := some "X", nuance := some "Does foo, gently" }],
    execution_steps := some ["alpha", "beta"], felt_state := some "f",
    integration_note := some "i", metadata := some rawMeta0, style := some rawStyle0,
    theme := none }

/-- A second complete raw definition whose canonical name `"shared"` collides
with the alias of `rawK1`. -/
def rawK2 : RawKernel :=
  { canonical_name := some "shared", aliases := some [],
    human_equivalent := some "h2", designation := some "d2", status := some "s2",
    directive := some "dir2", operators := some [], execution_steps := some [],
    felt_state := some "f2", integration_note := some "i2",
    metadata := some rawMeta0, style := some rawStyle0, theme := none }

/-- Like `rawK1` but with the non-colliding alias `"k1-alt"`. -/
def rawK3 : RawKernel :=
  { rawK1 with aliases := some ["k1-alt"] }

/-- The kernel `rawK1` resolves to. -/
def kernelA : AGIKernel :=
  { canonical_name := "k1", aliases := ["shared"], human_equivalent := "h",
    designation := "d", status := "s", directive := "dir",
    operators := [{ symbol := "X", name := "Foo", effect := "Does foo",
                    nuance := some "Does foo, gently" }],
    execution_steps := ["alpha", "beta"], felt_state := "f", integration_note := "i",
    metadata := meta0, style := style0, theme := none }

/-- The kernel `rawK2` resolves to. -/
def kernelB : AGIKernel :=
  { canonical_name := "shared", aliases := [], human_equivalent := "h2",
    designation := "d2", status := "s2", directive := "dir2", operators := [],
    execution_steps := [], felt_state := "f2", integration_note := "i2",
    metadata := meta0, style := style0, theme := none }

/-- The kernel `rawK3` resolves to. -/
def kernelA3 : AGIKernel :=
  { kernelA with aliases := ["k1-alt"] }

/-- The registry produced by loading `[rawK1, rawK2]` (key collision on
`"shared"`). -/
def regC : KernelRegistry :=
  { kernels := insertAllKernels [kernelA, kernelB] 0 [], operators := catalogX }

/-- A raw definition omitting only `operators` and `execution_steps`. -/
def rawNoOps : RawKernel :=
  { canonical_name := some "noops", aliases := none, human_equivalent := some "h",
    designation := some "d", status := some "s", directive := some "dir",
    operators := none, execution_steps := none, felt_state := some "f",
    integration_note := some "i", metadata := some rawMeta0, style := some rawStyle0,
    theme := none }

/-- The config `rawNoOps` parses to (empty operators and steps substituted). -/
def configNoOps : KernelConfig :=
  { canonical_name := "noops", aliases := [], human_equivalent := "h",
    designation := "d", status := "s", directive := "dir", operators := [],
    execution_steps := [], felt_state := "f", integration_note := "i",
    metadata := meta0, style := style0, theme := none }

/-- A raw definition omitting only `directive`. -/
def rawMissingDirective : RawKernel :=
  { rawK3 with directive := none }

/-- A raw definition whose single operator reference names the unknown
symbol `"Y"`. -/
def rawBad : RawKernel :=
  { canonical_name := some "bad", aliases := some [], human_equivalent := some "h",
    designation := some "d", status := some "s", directive := some "dir",
    operators := some [{ symbol := some "Y", nuance := none }],
    execution_steps := some [], felt_state := some "f", integration_note := some "i",
    metadata := some rawMeta0, style := some rawStyle0, theme := none }

/-- The config `rawBad` parses to. -/
def configBad : KernelConfig :=
  { canonical_name := "bad", aliases := [], human_equivalent := "h",
    designation := "d", status := "s", directive := "dir",
    operators := [{ symbol := "Y", nuance := none }], execution_steps := [],
    felt_state := "f", integration_note := "i", metadata := meta0, style := style0,
    theme := none }

/-- A resolved record whose nuance textually equals its effect. -/
def opDup : OperatorInstance :=
  { symbol := "X", name := "Foo", effect := "Does foo", nuance := some "Does foo" }

/-- A concrete resolved kernel with two execution steps and one operator
whose nuance equals its effect. -/
def kernel0 : AGIKernel :=
  { canonical_name := "k1", aliases := ["k1-alt"], human_equivalent := "h",
    designation := "d", status := "s", directive := "dir", operators := [opDup],
    execution_steps := ["alpha", "beta"], felt_state := "f", integration_note := "i",
    metadata := meta0, style := style0, theme := none }

/-- A potion kernel with no aliases. -/
def potion1 : PotionKernel :=
  { canonical_name := "p1", aliases := [], human_equivalent := "h",
    designation := "d", status := "s", directive := "dir", operators := [specX],
    execution_steps := ["step"], felt_state := "f", integration_note := "i" }

/-- A potion kernel whose alias collides with `potion1`'s canonical name. -/
def potion2 : PotionKernel :=
  { canonical_name := "p2", aliases := ["p1"], human_equivalent := "h2",
    designation := "d2", status := "s2", directive := "dir2", operators := [],
    execution_steps := [], felt_state := "f2", integration_note := "i2" }

/-- A potion kernel with a fresh alias. -/
def potion3 : PotionKernel :=
  { canonical_name := "p3", aliases := ["p3a"], human_equivalent := "h3",
    designation := "d3", status := "s3", directive := "dir3", operators := [],
    execution_steps := [], felt_state := "f3", integration_note := "i3" }

/-! ### Association-list (Python dict) lemmas -/

theorem exceptBind_ok {ε α β : Type} (a : α) (f : α → Except ε β) :
    (Except.ok a >>= f : Except ε β) = f a := rfl

theorem exceptBind_error {ε α β : Type} (e : ε) (f : α → Except ε β) :
    (Except.error e >>= f : Except ε β) = Except.error e := rfl

theorem exceptPure {ε α : Type} (a : α) : (pure a : Except ε α) = Except.ok a := rfl

theorem dictGet_insert_self {α : Type} (m : List (String × α)) (k : String) (v : α) :
    dictGet (dictInsert m k v) k = some v := by
  induction m with
  | nil => simp [dictInsert, dictGet]
  | cons p rest ih =>
    obtain ⟨k₀, v₀⟩ := p
    by_cases h : k₀ = k
    · simp [dictInsert, dictGet, h]
    · simp [dictInsert, dictGet, h, ih]

theorem dictGet_insert_ne {α : Type} (m : List (String × α)) (k k' : String) (v : α)
    (h : k' ≠ k) : dictGet (dictInsert m k v) k' = dictGet m k' := by
  have h' : k ≠ k' := Ne.symm h
  induction m with
  | nil => simp [dictInsert, dictGet, h']
  | cons p rest ih =>
    obtain ⟨k₀, v₀⟩ := p
    by_cases h₀ : k₀ = k
    · subst h₀
      simp [dictInsert, dictGet, h']
    · simp [dictInsert, dictGet, h₀, ih]

theorem dictGet_foldl_insert_same {α : Type} (v : α) :
    ∀ (keys : List String) (m : List (String × α)) (key : String),
      (dictGet m key = some v ∨ key ∈ keys) →
      dictGet (keys.foldl (fun m a => dictInsert m a v) m) key = some v := by
  intro keys
  induction keys with
  | nil =>
    intro m key h
    simpa using h.resolve_right (by simp)
  | cons a rest ih =>
    intro m key h
    simp only [List.foldl_cons]
    refine ih (dictInsert m a v) key ?_
    by_cases hk : key = a
    · subst hk
      exact Or.inl (dictGet_insert_self m key v)
    · rcases h with h | h
      · exact Or.inl ((dictGet_insert_ne m a key v hk).trans h)
      · rcases List.mem_cons.mp h with h | h
        · exact absurd h hk
        · exact Or.inr h

theorem dictGet_foldl_insert_not_mem {α : Type} (v : α) :
    ∀ (keys : List String) (m : List (String × α)) (key : String),
      key ∉ keys →
      dictGet (keys.foldl (fun m a => dictInsert m a v) m) key = dictGet m key := by
  intro keys
  induction keys with
  | nil => intro m key _; rfl
  | cons a rest ih =>
    intro m key h
    simp only [List.mem_cons, not_or] at h
    simp only [List.foldl_cons]
    rw [ih (dictInsert m a v) key h.2, dictGet_insert_ne m a key v h.1]

theorem dictGet_insertKernel_mem (m : List (String × (Nat × AGIKernel))) (i : Nat)
    (kernel : AGIKernel) (key : String) (h : key ∈ kernelKeys kernel) :
    dictGet (insertKernel m i kernel) key = some (i, kernel) := by
  rcases List.mem_cons.mp h with h | h
  · exact dictGet_foldl_insert_same _ _ _ _
      (Or.inl (h ▸ dictGet_insert_self m kernel.canonical_name (i, kernel)))
  · exact dictGet_foldl_insert_same _ _ _ _ (Or.inr h)

theorem dictGet_insertKernel_not_mem (m : List (String × (Nat × AGIKernel))) (i : Nat)
    (kernel : AGIKernel) (key : String) (h : key ∉ kernelKeys kernel) :
    dictGet (insertKernel m i kernel) key = dictGet m key := by
  simp only [kernelKeys, List.mem_cons, not_or] at h
  unfold insertKernel
  rw [dictGet_foldl_insert_not_mem _ _ _ _ h.2,
    dictGet_insert_ne m kernel.canonical_name key (i, kernel) h.1]

/-! ### Relating `buildKernels` to `resolveAll` -/

theorem resolveAll_eq_mapM (operators : List (String × OperatorSpec)) (datas : List RawKernel) :
    resolveAll operators datas = datas.mapM (resolveDef operators) := rfl

theorem buildKernels_of_resolveAll_ok (operators : List (String × OperatorSpec)) :
    ∀ (datas : List RawKernel) (ks : List AGIKernel) (i : Nat)
      (m : List (String × (Nat × AGIKernel))),
      resolveAll operators datas = .ok ks →
      buildKernels operators datas i m = .ok (insertAllKernels ks i m) := by
  intro datas
  induction datas with
  | nil =>
    intro ks i m h
    simp only [resolveAll, List.mapM_nil, exceptPure, Except.ok.injEq] at h
    subst h
    rfl
  | cons d rest ih =>
    intro ks i m h
    rw [resolveAll_eq_mapM, List.mapM_cons] at h
    cases hparse : KernelConfig.fromDict d with
    | error e =>
      rw [show resolveDef operators d = .error e by
            simp only [resolveDef, hparse, exceptBind_error], exceptBind_error] at h
      exact Except.noConfusion h
    | ok config =>
      cases hker : config.toKernel operators with
      | error e =>
        rw [show resolveDef operators d = .error e by
              simp only [resolveDef, hparse, exceptBind_ok, hker], exceptBind_error] at h
        exact Except.noConfusion h
      | ok k =>
        rw [show resolveDef operators d = .ok k by
              simp only [resolveDef, hparse, exceptBind_ok, hker], exceptBind_ok] at h
        cases hrest : rest.mapM (resolveDef operators) with
        | error e =>
          rw [hrest, exceptBind_error] at h
          exact Except.noConfusion h
        | ok ks' =>
          rw [hrest, exceptBind_ok, exceptPure, Except.ok.injEq] at h
          subst h
          simp only [buildKernels, hparse, exceptBind_ok, hker, insertAllKernels]
          exact ih ks' (i + 1) (insertKernel m i k) hrest

theorem buildKernels_of_resolveAll_error (operators : List (String × OperatorSpec)) :
    ∀ (datas : List RawKernel) (e : LoadError) (i : Nat)
      (m : List (String × (Nat × AGIKernel))),
      resolveAll operators datas = .error e →
      buildKernels operators datas i m = .error e := by
  intro datas
  induction datas with
  | nil =>
    intro e i m h
    simp only [resolveAll, List.mapM_nil, exceptPure] at h
    exact Except.noConfusion h
  | cons d rest ih =>
    intro e i m h
    rw [resolveAll_eq_mapM, List.mapM_cons] at h
    cases hparse : KernelConfig.fromDict d with
    | error e' =>
      rw [show resolveDef operators d = .error e' by
            simp only [resolveDef, hparse, exceptBind_error], exceptBind_error] at h
      cases h
      simp only [buildKernels, hparse, exceptBind_error]
    | ok config =>
      cases hker : config.toKernel operators with
      | error e' =>
        rw [show resolveDef operators d = .error e' by
              simp only [resolveDef, hparse, exceptBind_ok, hker], exceptBind_error] at h
        cases h
        simp only [buildKernels, hparse, exceptBind_ok, hker, exceptBind_error]
      | ok k =>
        rw [show resolveDef operators d = .ok k by
              simp only [resolveDef, hparse, exceptBind_ok, hker], exceptBind_ok] at h
        cases hrest : rest.mapM (resolveDef operators) with
        | error e' =>
          rw [hrest, exceptBind_error] at h
          cases h
          simp only [buildKernels, hparse, exceptBind_ok, hker]
          exact ih e (i + 1) (insertKernel m i k) hrest
        | ok ks' =>
          rw [hrest, exceptBind_ok, exceptPure] at h
          exact Except.noConfusion h

theorem loadKernels_isOk_iff (operators : List (String × OperatorSpec))
    (datas : List RawKernel) :
    (loadKernels operators datas).isOk = (resolveAll operators datas).isOk := by
  cases h : resolveAll operators datas with
  | ok ks =>
    simp [loadKernels, buildKernels_of_resolveAll_ok operators datas ks 0 [] h,
      exceptBind_ok, exceptPure, Except.isOk, Except.toBool]
  | error e =>
    simp [loadKernels, buildKernels_of_resolveAll_error operators datas e 0 [] h,
      exceptBind_error, Except.isOk, Except.toBool]

theorem dictGet_insertAllKernels_not_mem :
    ∀ (ks : List AGIKernel) (i : Nat) (m : List (String × (Nat × AGIKernel))) (key : String),
      (∀ kernel ∈ ks, key ∉ kernelKeys kernel) →
      dictGet (insertAllKernels ks i m) key = dictGet m key := by
  intro ks
  induction ks with
  | nil => intro i m key _; rfl
  | cons k0 rest ih =>
    intro i m key h
    simp only [insertAllKernels]
    rw [ih (i + 1) (insertKernel m i k0) key (fun kernel hk => h kernel (List.mem_cons_of_mem _ hk)),
      dictGet_insertKernel_not_mem m i k0 key (h k0 (List.mem_cons_self k0 rest))]

theorem dictGet_insertAllKernels_last :
    ∀ (ks : List AGIKernel) (j : Nat) (kernel : AGIKernel) (key : String) (i : Nat)
      (m : List (String × (Nat × AGIKernel))),
      ks[j]? = some kernel → key ∈ kernelKeys kernel →
      (∀ j' kernel', j < j' → ks[j']? = some kernel' → key ∉ kernelKeys kernel') →
      dictGet (insertAllKernels ks i m) key = some (i + j, kernel) := by
  intro ks
  induction ks with
  | nil => intro j kernel key i m h; simp at h
  | cons k0 rest ih =>
    intro j kernel key i m hget hkey hlater
    cases j with
    | zero =>
      simp only [List.getElem?_cons_zero, Option.some.injEq] at hget
      rw [← hget] at hkey ⊢
      simp only [insertAllKernels]
      have hnot : ∀ kernel' ∈ rest, key ∉ kernelKeys kernel' := by
        intro kernel' hk'
        obtain ⟨j'', hj''⟩ := List.getElem?_of_mem hk'
        exact hlater (j'' + 1) kernel' (Nat.succ_pos j'')
          (by simpa [List.getElem?_cons_succ] using hj'')
      rw [dictGet_insertAllKernels_not_mem rest (i + 1) (insertKernel m i k0) key hnot,
        dictGet_insertKernel_mem m i k0 key hkey]
      rfl
    | succ j' =>
      simp only [List.getElem?_cons_succ] at hget
      simp only [insertAllKernels]
      have hrec := ih j' kernel key (i + 1) (insertKernel m i k0) hget hkey
        (fun j'' kernel' hlt hg => hlater (j'' + 1) kernel' (by omega)
          (by simpa [List.getElem?_cons_succ] using hg))
      have harith : i + 1 + j' = i + (j' + 1) := by omega
      rw [hrec, harith]

theorem kernelKeys_nodup_disjoint :
    ∀ (ks : List AGIKernel), (ks.flatMap kernelKeys).Nodup →
      ∀ (j j' : Nat) (kernel kernel' : AGIKernel), j ≠ j' →
        ks[j]? = some kernel → ks[j']? = some kernel' →
        ∀ key, key ∈ kernelKeys kernel → key ∉ kernelKeys kernel' := by
  intro ks
  induction ks with
  | nil => intro _ j j' kernel kernel' _ h; simp at h
  | cons k0 rest ih =>
    intro hnd j j' kernel kernel' hne hget hget'
    rw [List.flatMap_cons, List.nodup_append] at hnd
    obtain ⟨-, hnd2, hdisj⟩ := hnd
    cases j with
    | zero =>
      simp only [List.getElem?_cons_zero, Option.some.injEq] at hget
      subst hget
      cases j' with
      | zero => exact absurd rfl hne
      | succ j'' =>
        simp only [List.getElem?_cons_succ] at hget'
        intro key hkey hkey'
        exact hdisj hkey (List.mem_flatMap.mpr ⟨kernel', List.getElem?_mem hget', hkey'⟩)
    | succ j'' =>
      simp only [List.getElem?_cons_succ] at hget
      cases j' with
      | zero =>
        simp only [List.getElem?_cons_zero, Option.some.injEq] at hget'
        subst hget'
        intro key hkey hkey'
        exact hdisj hkey' (List.mem_flatMap.mpr ⟨kernel, List.getElem?_mem hget, hkey⟩)
      | succ j''' =>
        simp only [List.getElem?_cons_succ] at hget'
        exact ih hnd2 j'' j''' kernel kernel' (by omega) hget hget'

/-! ### Potion-registry lemmas (for `list_canonical_kernels`) -/

theorem dictInsert_append_of_not_mem {α : Type} (m : List (String × α)) (k : String) (v : α)
    (h : k ∉ dictKeys m) : dictInsert m k v = m ++ [(k, v)] := by
  induction m with
  | nil => rfl
  | cons p rest ih =>
    obtain ⟨k₀, v₀⟩ := p
    simp only [dictKeys, List.map_cons, List.mem_cons, not_or] at h
    simp only [dictInsert, if_neg (fun hh : k₀ = k => h.1 hh.symm), List.cons_append,
      List.cons.injEq, true_and]
    exact ih h.2

theorem foldl_insert_append {α : Type} (v : α) :
    ∀ (keys : List String) (m : List (String × α)), keys.Nodup →
      (∀ a ∈ keys, a ∉ dictKeys m) →
      keys.foldl (fun m a => dictInsert m a v) m = m ++ keys.map (fun a => (a, v)) := by
  intro keys
  induction keys with
  | nil => intro m _ _; simp
  | cons a rest ih =>
    intro m hnd hfresh
    rw [List.nodup_cons] at hnd
    simp only [List.foldl_cons]
    rw [dictInsert_append_of_not_mem m a v (hfresh a (List.mem_cons_self a rest)),
      ih (m ++ [(a, v)]) hnd.2 ?_]
    · simp
    · intro b hb
      simp only [dictKeys, List.map_append, List.mem_append, List.map_cons, not_or]
      refine ⟨hfresh b (List.mem_cons_of_mem a hb), ?_⟩
      simp only [List.map_nil, List.mem_singleton]
      exact fun hba => hnd.1 (hba ▸ hb)

theorem registerKernel_append (m : List (String × PotionKernel)) (kernel : PotionKernel)
    (hnd : (potionKeys kernel).Nodup)
    (hfresh : ∀ a ∈ potionKeys kernel, a ∉ dictKeys m) :
    registerKernel m kernel = m ++ (potionKeys kernel).map (fun a => (a, kernel)) := by
  have hnd' := hnd
  rw [potionKeys, List.nodup_cons] at hnd'
  unfold registerKernel
  rw [dictInsert_append_of_not_mem m kernel.canonical_name kernel
      (hfresh _ (List.mem_cons_self _ _)),
    foldl_insert_append kernel kernel.aliases (m ++ [(kernel.canonical_name, kernel)]) hnd'.2 ?_]
  · simp [potionKeys]
  · intro b hb
    simp only [dictKeys, List.map_append, List.mem_append, not_or]
    refine ⟨hfresh b (List.mem_cons_of_mem _ hb), ?_⟩
    simp only [List.map_cons, List.map_nil, List.mem_singleton]
    exact fun hba => hnd'.1 (hba ▸ hb)

theorem foldl_registerKernel_append :
    ∀ (ks : List PotionKernel) (m : List (String × PotionKernel)),
      (ks.flatMap potionKeys).Nodup →
      (∀ a ∈ ks.flatMap potionKeys, a ∉ dictKeys m) →
      ks.foldl registerKernel m =
        m ++ ks.flatMap (fun kernel => (potionKeys kernel).map (fun a => (a, kernel))) := by
  intro ks
  induction ks with
  | nil => intro m _ _; simp
  | cons k0 rest ih =>
    intro m hnd hfresh
    rw [List.flatMap_cons, List.nodup_append] at hnd
    obtain ⟨hnd0, hnd2, hdisj⟩ := hnd
    simp only [List.foldl_cons]
    rw [registerKernel_append m k0 hnd0
      (fun a ha => hfresh a (by simp [List.flatMap_cons, ha])),
      ih (m ++ (potionKeys k0).map (fun a => (a, k0))) hnd2 ?_]
    · simp [List.flatMap_cons]
    · intro a ha
      simp only [dictKeys, List.map_append, List.mem_append, not_or, List.map_map]
      constructor
      · exact hfresh a (by
          rw [List.flatMap_cons]
          exact List.mem_append.mpr (Or.inr ha))
      · intro hmem
        have : a ∈ potionKeys k0 := by
          simpa [Function.comp] using hmem
        exact hdisj this ha

theorem dedupCanonical_skip :
    ∀ (copies rest : List PotionKernel) (seen : List String),
      (∀ c ∈ copies, c.canonical_name ∈ seen) →
      dedupCanonical seen (copies ++ rest) = dedupCanonical seen rest := by
  intro copies
  induction copies with
  | nil => intro rest seen _; rfl
  | cons c cs ih =>
    intro rest seen h
    simp only [List.cons_append, dedupCanonical,
      if_pos (h c (List.mem_cons_self c cs))]
    exact ih rest seen (fun c' hc' => h c' (List.mem_cons_of_mem c hc'))

theorem dedupCanonical_flat :
    ∀ (ks : List PotionKernel) (seen : List String),
      (ks.flatMap potionKeys).Nodup →
      (∀ kernel ∈ ks, kernel.canonical_name ∉ seen) →
      dedupCanonical seen (ks.flatMap (fun kernel => (potionKeys kernel).map
        (fun _ => kernel))) = ks := by
  intro ks
  induction ks with
  | nil => intro seen _ _; rfl
  | cons k0 rest ih =>
    intro seen hnd hseen
    rw [List.flatMap_cons, List.nodup_append] at hnd
    obtain ⟨-, hnd2, hdisj⟩ := hnd
    have hexpand : (potionKeys k0).map (fun _ => k0) =
        k0 :: k0.aliases.map (fun _ => k0) := by
      simp only [potionKeys, List.map_cons]
    have hskip : ∀ c ∈ k0.aliases.map (fun _ => k0),
        c.canonical_name ∈ k0.canonical_name :: seen := by
      intro c hc
      obtain ⟨x, -, rfl⟩ := List.mem_map.mp hc
      exact List.mem_cons_self _ _
    have hseen' : ∀ kernel ∈ rest, kernel.canonical_name ∉ k0.canonical_name :: seen := by
      intro kernel hk
      simp only [List.mem_cons, not_or]
      have hmem0 : k0.canonical_name ∈ potionKeys k0 := by
        simp [potionKeys]
      have hmem1 : kernel.canonical_name ∈ rest.flatMap potionKeys :=
        List.mem_flatMap.mpr ⟨kernel, hk, by simp [potionKeys]⟩
      exact ⟨fun heq => hdisj hmem0 (heq ▸ hmem1),
        hseen kernel (List.mem_cons_of_mem k0 hk)⟩
    have h1 : (k0 :: rest).flatMap (fun kernel => (potionKeys kernel).map (fun _ => kernel))
        = k0 :: (k0.aliases.map (fun _ => k0) ++
            rest.flatMap (fun kernel => (potionKeys kernel).map (fun _ => kernel))) := by
      simp only [List.flatMap_cons, hexpand, List.cons_append]
    rw [h1, dedupCanonical, if_neg (hseen k0 (List.mem_cons_self k0 rest)),
      dedupCanonical_skip _ _ _ hskip, ih (k0.canonical_name :: seen) hnd2 hseen']

theorem listCanonicalKernels_of_nodup (ks : List PotionKernel)
    (hnd : (ks.flatMap potionKeys).Nodup) :
    listCanonicalKernels (buildPotionRegistry ks) = ks := by
  unfold listCanonicalKernels buildPotionRegistry
  rw [foldl_registerKernel_append ks [] hnd (by simp [dictKeys])]
  have hvals : dictValues (ks.flatMap (fun kernel => (potionKeys kernel).map
      (fun a => (a, kernel)))) =
      ks.flatMap (fun kernel => (potionKeys kernel).map (fun _ => kernel)) := by
    unfold dictValues
    rw [List.map_flatMap]
    congr 1
    funext kernel
    rw [List.map_map]
    rfl
  simp only [List.nil_append, hvals]
  exact dedupCanonical_flat ks [] hnd (by simp)

/-! ### Validation lemmas for `KernelConfig.from_dict` -/

theorem exceptIsOk_ok {ε α : Type} (a : α) : (Except.ok a : Except ε α).isOk = true := rfl

theorem exceptIsOk_error {ε α : Type} (e : ε) :
    (Except.error e : Except ε α).isOk = false := rfl

theorem exceptIsOk_bind {ε α β : Type} (x : Except ε α) (f : α → Except ε β) :
    ((x >>= f).isOk = true) ↔ ∃ a, x = .ok a ∧ (f a).isOk = true := by
  cases x with
  | ok a => simp [exceptBind_ok, exceptIsOk_ok]
  | error e => simp [exceptBind_error, Except.isOk, Except.toBool]

theorem exceptIsOk_iff_exists {ε α : Type} (x : Except ε α) :
    x.isOk = true ↔ ∃ a, x = .ok a := by
  cases x <;> simp [Except.isOk, Except.toBool]

theorem require_eq_ok {α : Type} (fieldName : String) (o : Option α) (a : α) :
    require fieldName o = .ok a ↔ o = some a := by
  cases o <;> simp [require]

theorem opRefs_mapM_ok_iff :
    ∀ (l : List RawOperatorRef),
      (∃ refs, l.mapM KernelOperatorRef.fromDict =
        (.ok refs : Except LoadError (List KernelOperatorRef))) ↔
      ∀ r ∈ l, r.symbol.isSome = true := by
  intro l
  induction l with
  | nil =>
    simp only [List.not_mem_nil, false_implies, implies_true, iff_true]
    exact ⟨[], by rw [List.mapM_nil, exceptPure]⟩
  | cons r rest ih =>
    rw [List.mapM_cons]
    cases hs : r.symbol with
    | none =>
      simp [KernelOperatorRef.fromDict, require, hs, exceptBind_error,
        List.forall_mem_cons]
    | some s =>
      have hr : KernelOperatorRef.fromDict r = .ok { symbol := s, nuance := r.nuance } := by
        simp [KernelOperatorRef.fromDict, require, hs, exceptBind_ok]
      rw [hr, exceptBind_ok]
      cases hrest : rest.mapM KernelOperatorRef.fromDict with
      | error e =>
        have hforall : ¬ ∀ r' ∈ rest, r'.symbol.isSome = true := by
          intro hall
          obtain ⟨refs, hrefs⟩ := ih.mpr hall
          rw [hrest] at hrefs
          exact Except.noConfusion hrefs
        simp [exceptBind_error, List.forall_mem_cons, hs, hforall]
      | ok refs =>
        have hforall : ∀ r' ∈ rest, r'.symbol.isSome = true := ih.mp ⟨refs, hrest⟩
        rw [exceptBind_ok, exceptPure]
        constructor
        · intro _
          rw [List.forall_mem_cons]
          exact ⟨by simp [hs], hforall⟩
        · intro _
          exact ⟨_, rfl⟩

theorem metadata_fromDict_ok_iff (md : RawMetadata) :
    (∃ meta, KernelMetadata.fromDict md = .ok meta) ↔
      md.version.isSome = true ∧ md.created_by.isSome = true ∧
      md.last_modified.isSome = true ∧ md.safety.isSome = true := by
  cases hv : md.version <;> cases hc : md.created_by <;>
    cases hl : md.last_modified <;> cases hs : md.safety <;>
    simp [KernelMetadata.fromDict, require, hv, hc, hl, hs, exceptBind_error,
      exceptBind_ok, exceptPure]

theorem style_fromDict_ok_iff (st : RawStyle) :
    (∃ style, KernelStyle.fromDict st = .ok style) ↔
      st.palette.isSome = true ∧ st.tone.isSome = true ∧ st.layout.isSome = true := by
  cases hp : st.palette <;> cases ht : st.tone <;> cases hl : st.layout <;>
    simp [KernelStyle.fromDict, require, hp, ht, hl, exceptBind_error,
      exceptBind_ok, exceptPure]

theorem kernelConfig_fromDict_isOk (data : RawKernel) :
    (KernelConfig.fromDict data).isOk = true ↔ RawKernelComplete data := by
  constructor
  · intro h
    simp only [KernelConfig.fromDict, exceptIsOk_bind, require_eq_ok] at h
    obtain ⟨cn, hcn, he, hhe, hd, hhd, hst, hhst, hdir, hhdir, ops, hops, fs, hfs,
      note, hnote, md, hmd, meta, hmeta, st, hst', style, hstyle, -⟩ := h
    refine ⟨by simp [hcn], by simp [hhe], by simp [hhd], by simp [hhst], by simp [hhdir],
      opRefs_mapM_ok_iff _ |>.mp ⟨ops, hops⟩, by simp [hfs], by simp [hnote],
      ⟨md, hmd, ?_⟩, ⟨st, hst', ?_⟩⟩
    · obtain ⟨h1, h2, h3, h4⟩ := (metadata_fromDict_ok_iff md).mp ⟨meta, hmeta⟩
      exact ⟨h1, h2, h3, h4⟩
    · obtain ⟨h1, h2, h3⟩ := (style_fromDict_ok_iff st).mp ⟨style, hstyle⟩
      exact ⟨h1, h2, h3⟩
  · intro h
    obtain ⟨h1, h2, h3, h4, h5, h6, h7, h8, ⟨md, hmd, hm1, hm2, hm3, hm4⟩,
      ⟨st, hst, hs1, hs2, hs3⟩⟩ := h
    obtain ⟨cn, hcn⟩ := Option.isSome_iff_exists.mp h1
    obtain ⟨he, hhe⟩ := Option.isSome_iff_exists.mp h2
    obtain ⟨hd, hhd⟩ := Option.isSome_iff_exists.mp h3
    obtain ⟨hs', hhs⟩ := Option.isSome_iff_exists.mp h4
    obtain ⟨hdir, hhdir⟩ := Option.isSome_iff_exists.mp h5
    obtain ⟨ops, hops⟩ := (opRefs_mapM_ok_iff _).mpr h6
    obtain ⟨fs, hfs⟩ := Option.isSome_iff_exists.mp h7
    obtain ⟨note, hnote⟩ := Option.isSome_iff_exists.mp h8
    obtain ⟨meta, hmeta⟩ := (metadata_fromDict_ok_iff md).mpr ⟨hm1, hm2, hm3, hm4⟩
    obtain ⟨style, hstyle⟩ := (style_fromDict_ok_iff st).mpr ⟨hs1, hs2, hs3⟩
    simp only [KernelConfig.fromDict, exceptIsOk_bind, require_eq_ok]
    exact ⟨cn, hcn, he, hhe, hd, hhd, hs', hhs, hdir, hhdir, ops, hops, fs, hfs,
      note, hnote, md, hmd, meta, hmeta, st, hst, style, hstyle, rfl⟩

/-! ### First-failure lemmas for operator resolution -/

theorem mapM_eq_error_of_first {ε α β : Type} (f : α → Except ε β) :
    ∀ (l : List α) (i : Nat) (x : α) (e : ε),
      l[i]? = some x → f x = .error e →
      (∀ j y, j < i → l[j]? = some y → ∃ b, f y = .ok b) →
      l.mapM f = .error e := by
  intro l
  induction l with
  | nil => intro i x e h; simp at h
  | cons a rest ih =>
    intro i x e hget hfx hearlier
    rw [List.mapM_cons]
    cases i with
    | zero =>
      simp only [List.getElem?_cons_zero, Option.some.injEq] at hget
      rw [← hget] at hfx
      rw [hfx, exceptBind_error]
    | succ i' =>
      simp only [List.getElem?_cons_succ] at hget
      obtain ⟨b, hb⟩ := hearlier 0 a (Nat.succ_pos i') (by simp)
      have hrest : rest.mapM f = .error e := by
        refine ih i' x e hget hfx ?_
        intro j y hj hy
        exact hearlier (j + 1) y (by omega) (by simpa using hy)
      rw [hb, exceptBind_ok, hrest, exceptBind_error]

theorem mapM_isOk_forall {ε α β : Type} (f : α → Except ε β) :
    ∀ (l : List α) (bs : List β), l.mapM f = .ok bs → ∀ a ∈ l, ∃ b, f a = .ok b := by
  intro l
  induction l with
  | nil => intro bs _ a ha; simp at ha
  | cons x rest ih =>
    intro bs h a ha
    rw [List.mapM_cons] at h
    cases hx : f x with
    | error e =>
      rw [hx, exceptBind_error] at h
      exact Except.noConfusion h
    | ok b =>
      rw [hx, exceptBind_ok] at h
      cases hrest : rest.mapM f with
      | error e =>
        rw [hrest, exceptBind_error] at h
        exact Except.noConfusion h
      | ok bs' =>
        rcases List.mem_cons.mp ha with rfl | ha'
        · exact ⟨b, hx⟩
        · exact ih bs' hrest a ha'

theorem toKernel_error_of_first (config : KernelConfig)
    (operators : List (String × OperatorSpec)) (i : Nat) (ref : KernelOperatorRef)
    (hget : config.operators[i]? = some ref)
    (hnone : dictGet operators ref.symbol = none)
    (hearlier : ∀ j ref', j < i → config.operators[j]? = some ref' →
      (dictGet operators ref'.symbol).isSome = true) :
    config.toKernel operators = .error (.unknownOperator ref.symbol) := by
  unfold KernelConfig.toKernel
  have hmap : config.operators.mapM (fun r => r.resolve operators) =
      .error (.unknownOperator ref.symbol) := by
    refine mapM_eq_error_of_first _ config.operators i ref _ hget ?_ ?_
    · simp [KernelOperatorRef.resolve, hnone]
    · intro j ref' hj hr
      obtain ⟨spec, hspec⟩ := Option.isSome_iff_exists.mp (hearlier j ref' hj hr)
      have hok : KernelOperatorRef.resolve ref' operators =
          .ok { symbol := spec.symbol, name := spec.name, effect := spec.effect,
                nuance := ref'.nuance } := by
        simp [KernelOperatorRef.resolve, hspec]
      exact ⟨_, hok⟩
  rw [hmap, exceptBind_error]

theorem resolveAll_not_ok_of_mem (operators : List (String × OperatorSpec))
    (datas : List RawKernel) (d : RawKernel) (e : LoadError)
    (hmem : d ∈ datas) (hfail : resolveDef operators d = .error e) :
    (resolveAll operators datas).isOk = false := by
  cases h : resolveAll operators datas with
  | error e' => simp [Except.isOk, Except.toBool]
  | ok ks =>
    exfalso
    obtain ⟨k, hk⟩ := mapM_isOk_forall (resolveDef operators) datas ks h d hmem
    rw [hfail] at hk
    exact Except.noConfusion hk

/-! ### Rendering lemmas -/

theorem string_eq_empty_of_length_eq_zero (s : String) (h : s.length = 0) : s = "" := by
  cases s with
  | mk data =>
    cases data with
    | nil => rfl
    | cons c cs =>
      have hl : (String.mk (c :: cs)).length = cs.length + 1 := rfl
      omega

theorem append_ne_self_of_ne_empty (a b : String) (hb : b ≠ "") : a ++ b ≠ a := by
  intro heq
  have hlen := congrArg String.length heq
  rw [String.length_append] at hlen
  exact hb (string_eq_empty_of_length_eq_zero b (by omega))

theorem append_ne_empty_left (a b : String) (ha : a ≠ "") : a ++ b ≠ "" := by
  intro heq
  have hlen := congrArg String.length heq
  rw [String.length_append] at hlen
  have h0 : ("" : String).length = 0 := rfl
  exact ha (string_eq_empty_of_length_eq_zero a (by omega))

theorem pyStrip_empty : pyStrip "" = "" := rfl

theorem pyStrip_ne_empty_of (n : String) (h : pyStrip n ≠ "") : n ≠ "" := by
  intro he
  subst he
  exact h pyStrip_empty

theorem describe_ne_iff (op : OperatorInstance) :
    op.describe ≠ op.symbol ++ " " ++ op.name ++ ": " ++ op.effect ↔
      ∃ n, op.nuance = some n ∧ pyStrip n ≠ "" ∧ pyStrip n ≠ pyStrip op.effect := by
  cases hn : op.nuance with
  | none => simp [OperatorInstance.describe, hn]
  | some n =>
    by_cases hcond : n ≠ "" ∧ pyStrip n ≠ "" ∧ pyStrip n ≠ pyStrip op.effect
    · simp only [OperatorInstance.describe, hn, if_pos hcond]
      constructor
      · intro _
        exact ⟨n, rfl, hcond.2.1, hcond.2.2⟩
      · intro _
        rw [String.append_assoc]
        exact append_ne_self_of_ne_empty _ _ (append_ne_empty_left " :: " n (by decide))
    · simp only [OperatorInstance.describe, hn, if_neg hcond]
      have hrhs : ¬ ∃ n', op.nuance = some n' ∧ pyStrip n' ≠ "" ∧
          pyStrip n' ≠ pyStrip op.effect := by
        rintro ⟨n', heq, h1, h2⟩
        rw [hn, Option.some.injEq] at heq
        subst heq
        exact hcond ⟨pyStrip_ne_empty_of n h1, h1, h2⟩
      rw [hn] at hrhs
      constructor
      · intro hne
        exact absurd rfl hne
      · intro hex
        exact absurd hex hrhs

theorem renderOperatorEntry_ne_iff (op : OperatorInstance) :
    renderOperatorEntry op ≠
      "    - " ++ op.symbol ++ " " ++ op.name ++ "\n      ↳ " ++ op.effect ↔
      ∃ n, op.nuance = some n ∧ n ≠ "" := by
  cases hn : op.nuance with
  | none => simp [renderOperatorEntry, hn]
  | some n =>
    by_cases hne : n = ""
    · subst hne
      simp [renderOperatorEntry, hn]
    · simp only [renderOperatorEntry, hn, ne_eq, hne, not_false_eq_true, if_pos]
      constructor
      · intro _
        exact ⟨n, rfl, hne⟩
      · intro _
        exact append_ne_self_of_ne_empty _ _ (append_ne_empty_left "\n      ↝ " n (by decide))

theorem qhcOperatorLine_ne_iff (idx : Nat) (op : OperatorInstance) :
    (qhcOperatorLines idx op)[0]? ≠
      some ("    ✺✺ ⧈ Operator_" ++ toString idx ++ ": " ++ op.symbol ++ " = \x27" ++
        op.name ++ "\x27 🌐[7.8366 Hz]") ↔
      ∃ n, op.nuance = some n ∧ n ≠ "" := by
  cases hn : op.nuance with
  | none => simp [qhcOperatorLines, hn]
  | some n =>
    by_cases hne : n = ""
    · subst hne
      simp [qhcOperatorLines, hn]
    · simp only [qhcOperatorLines, hn, ne_eq, hne, not_false_eq_true, if_pos,
        List.getElem?_cons_zero, Option.some.injEq]
      constructor
      · intro _
        exact ⟨n, rfl, hne⟩
      · intro _
        exact append_ne_self_of_ne_empty _ _ (append_ne_empty_left " // " n (by decide))

theorem getElem?_append_middle {α : Type} (A mid B : List α) (i : Nat)
    (hi : i < mid.length) : (A ++ (mid ++ B))[A.length + i]? = mid[i]? := by
  rw [List.getElem?_append_right (by omega)]
  have hsub : A.length + i - A.length = i := by omega
  rw [hsub, List.getElem?_append, if_pos hi]

theorem markdownSections_decomp (k : AGIKernel) :
    ∃ A B, markdownSections k =
      A ++ ((k.execution_steps.map (fun step => "1. " ++ step)) ++ B) ∧
      A.length = 10 + k.operators.length := by
  refine ⟨["## " ++ k.designation,
    "**Canonical Name:** `" ++ k.canonical_name ++ "`",
    "**Aliases:** " ++ (if k.aliases.isEmpty then "—" else String.intercalate ", " k.aliases),
    "**Human Equivalent:** " ++ k.human_equivalent,
    "**Status:** " ++ k.status,
    "**Directive:** " ++ k.directive,
    "",
    "### Operators"]
    ++ (k.operators.map (fun op => "- " ++ op.describe) ++ ["", "### Execution"]),
    ["",
     "**Felt State:** " ++ k.felt_state,
     "**Integration Note:** " ++ k.integration_note,
     "",
     "### Metadata",
     "- Version: " ++ k.metadata.version,
     "- Created By: " ++ k.metadata.created_by,
     "- Last Modified: " ++ k.metadata.last_modified,
     "- Safety: " ++ k.metadata.safety,
     "- Tags: " ++ (if k.metadata.tags.isEmpty then "—"
                    else String.intercalate ", " k.metadata.tags),
     "",
     "### Style",
     "- Palette: " ++ k.style.palette,
     "- Tone: " ++ k.style.tone,
     "- Layout: " ++ k.style.layout,
     "- Motif: " ++ (match k.style.motif with
                     | some m => if m ≠ "" then m else "—"
                     | none => "—")]
    ++ (match k.theme with
        | some t => if t ≠ "" then ["", "**Theme:** " ++ t] else []
        | none => [])
    ++ ["", "> " ++ UNIVERSAL_ACTIVATION_MESSAGE], ?_, ?_⟩
  · simp [markdownSections, List.append_assoc]
  · simp [List.length_append, List.length_map]
    omega

theorem markdown_execution_line (k : AGIKernel) (i : Nat) (step : String)
    (h : k.execution_steps[i]? = some step) :
    (markdownSections k)[10 + k.operators.length + i]? = some ("1. " ++ step) := by
  have hi : i < k.execution_steps.length := by
    rcases List.getElem?_eq_some_iff.mp h with ⟨hlt, -⟩
    exact hlt
  obtain ⟨A, B, hAB, hA⟩ := markdownSections_decomp k
  rw [hAB, ← hA, getElem?_append_middle A _ B i (by simpa using hi),
    List.getElem?_map, h]
  rfl

theorem consoleExecutionLines_getElem (k : AGIKernel) (i : Nat) (step : String)
    (h : k.execution_steps[i]? = some step) :
    (consoleExecutionLines k)[i]? =
      some ("    " ++ toString (i + 1) ++ ". " ++ step) := by
  simp [consoleExecutionLines, List.getElem?_map, List.getElem?_enum, h]

/-! ### Bundle decoding lemmas -/

theorem asOptStr_pyOpt (o : Option String) : asOptStr (pyOpt o) = some o := by
  cases o <;> rfl

theorem decodeStrings_map_str (xs : List String) :
    decodeStrings (xs.map PyVal.str) = some xs := by
  induction xs with
  | nil => rfl
  | cons x rest ih =>
    rw [List.map_cons, decodeStrings]
    simp only [asStr, ih]
    rfl

theorem asStrList_map_str (xs : List String) :
    asStrList (.list (xs.map .str)) = some xs :=
  decodeStrings_map_str xs

theorem operatorOfDict_encode (op : OperatorInstance) :
    operatorOfDict (operatorToDict op) = some op := by
  cases op with
  | mk symbol name effect nuance => cases nuance <;> rfl

theorem operators_decode (ops : List OperatorInstance) :
    decodeOperators (ops.map operatorToDict) = some ops := by
  induction ops with
  | nil => rfl
  | cons op rest ih =>
    rw [List.map_cons, decodeOperators]
    simp only [operatorOfDict_encode, ih]
    rfl

theorem metadataOfDict_encode (meta : KernelMetadata) :
    metadataOfDict (.dict
      [("version", .str meta.version), ("created_by", .str meta.created_by),
       ("last_modified", .str meta.last_modified), ("safety", .str meta.safety),
       ("tags", .list (meta.tags.map .str))]) = some meta := by
  simp [metadataOfDict, dictGet, asStr, asStrList_map_str]

theorem styleOfDict_encode (style : KernelStyle) :
    styleOfDict (.dict
      [("palette", .str style.palette), ("tone", .str style.tone),
       ("layout", .str style.layout), ("motif", pyOpt style.motif)]) = some style := by
  simp [styleOfDict, dictGet, asStr, asOptStr_pyOpt]

theorem kernelOfBundle_encode (k : AGIKernel) :
    kernelOfBundle k.toActivationBundle = some k := by
  simp [kernelOfBundle, AGIKernel.toActivationBundle, dictGet, asStr, asOptStr_pyOpt,
    asStrList_map_str, operators_decode, metadataOfDict_encode, styleOfDict_encode]

/-! ### Activation format dispatch lemmas -/

theorem activate_isOk_iff (k : AGIKernel) (format : String) :
    (k.activate format).isOk = true ↔
      format ∈ (["json", "markdown", "rich", "qhc"] : List String) := by
  unfold AGIKernel.activate
  by_cases h1 : format = "json"
  · simp [h1, exceptIsOk_ok]
  · by_cases h2 : format = "markdown" ∨ format = "rich"
    · rcases h2 with h2 | h2 <;> simp [h1, h2, exceptIsOk_ok]
    · by_cases h3 : format = "qhc"
      · simp [h1, h2, h3, exceptIsOk_ok]
      · push_neg at h2
        simp [h1, h2.1, h2.2, h3, Except.isOk, Except.toBool]

theorem activate_unsupported (k : AGIKernel) (format : String)
    (h : format ∉ (["json", "markdown", "rich", "qhc"] : List String)) :
    k.activate format = .error ("Unsupported activation format: " ++ format) := by
  simp only [List.mem_cons, List.not_mem_nil, or_false, not_or] at h
  obtain ⟨h1, h2, h3, h4⟩ := h
  unfold AGIKernel.activate
  rw [if_neg h1, if_neg (by tauto), if_neg h4]

/-! ### Claim theorems -/

/-- Claim C1, counterexample.  The claim says a record whose canonical name
or alias equals an already-registered key fails the whole load with
`DuplicateKey(key)`.  In fact loading `[rawK1, rawK2]` — where `rawK2`'s
canonical name `"shared"` equals an alias of `rawK1` — succeeds, and the key
`"shared"` silently ends up owned by the second record (identity tag 1, its
own canonical name): the first record's alias entry is overwritten. -/
theorem c1_counterexample :
    loadKernels catalogX [rawK1, rawK2] = .ok regC ∧
    (regC.get "shared").map Prod.fst = some 1 ∧
    (regC.get "shared").map (fun p => p.2.canonical_name) = some "shared" :=
  ⟨rfl, rfl, rfl⟩

/-- Claim C1, amended.  There is no duplicate-key check: the load succeeds
whenever every record resolves, and on a key collision the later record in
enumeration order silently overwrites the earlier entry (last writer wins);
the registry maps such a key to the record of the greatest index declaring
it. -/
theorem c1_theorem (operators : List (String × OperatorSpec)) (datas : List RawKernel)
    (ks : List AGIKernel) (h : resolveAll operators datas = .ok ks)
    (j : Nat) (kernel : AGIKernel) (key : String)
    (hj : ks[j]? = some kernel) (hkey : key ∈ kernelKeys kernel)
    (hlast : ∀ j' kernel', j < j' → ks[j']? = some kernel' → key ∉ kernelKeys kernel') :
    ∃ reg, loadKernels operators datas = .ok reg ∧ reg.get key = some (j, kernel) := by
  refine ⟨{ kernels := insertAllKernels ks 0 [], operators }, ?_, ?_⟩
  · unfold loadKernels
    rw [buildKernels_of_resolveAll_ok operators datas ks 0 [] h, exceptBind_ok, exceptPure]
  · unfold KernelRegistry.get
    simpa using dictGet_insertAllKernels_last ks j kernel key 0 [] hj hkey hlast

/-- Witness for C1's amended theorem at the colliding batch
`[rawK1, rawK2]`: the key `"shared"` resolves to the second record. -/
theorem c1_witness :
    ∃ reg, loadKernels catalogX [rawK1, rawK2] = .ok reg ∧
      reg.get "shared" = some (1, kernelB) := by
  refine c1_theorem catalogX [rawK1, rawK2] [kernelA, kernelB] rfl 1 kernelB "shared"
    rfl (by simp [kernelKeys, kernelB]) ?_
  intro j' k' hlt hget
  have hnone : ([kernelA, kernelB] : List AGIKernel)[j']? = none :=
    List.getElem?_eq_none (by simp; omega)
  rw [hnone] at hget
  exact Option.noConfusion hget

/-- Claim C2, counterexample.  The claim requires `MissingField` for a
definition missing any of the listed required fields, including `operators`
and `execution_steps`.  In fact `rawNoOps`, which omits both, parses
successfully (empty lists silently substituted) and its record is gettable
from the loaded registry. -/
theorem c2_counterexample :
    KernelConfig.fromDict rawNoOps = .ok configNoOps ∧
    ∃ reg, loadKernels catalogX [rawNoOps] = .ok reg ∧
      (reg.get "noops").map Prod.fst = some 0 :=
  ⟨rfl, _, rfl, rfl⟩

/-- Claim C2, amended.  Parsing fails with `MissingField` exactly when one
of the fields the code actually requires is absent: `canonical_name`,
`human_equivalent`, `designation`, `status`, `directive`, `felt_state`,
`integration_note`, `metadata` (with `version`, `created_by`,
`last_modified`, `safety`), `style` (with `palette`, `tone`, `layout`), and
the `symbol` of each listed operator reference.  `aliases`, `operators`,
`execution_steps`, `tags`, `theme`, `motif` and `nuance` default instead.
In particular a definition omitting only `directive` fails with
`MissingField("directive")`. -/
theorem c2_theorem :
    (∀ data : RawKernel,
      (KernelConfig.fromDict data).isOk = true ↔ RawKernelComplete data) ∧
    KernelConfig.fromDict rawMissingDirective = .error (.missingField "directive") :=
  ⟨kernelConfig_fromDict_isOk, rfl⟩

/-- Witness for C2's amended theorem: the complete definition `rawK3`
satisfies the presence condition and parses successfully. -/
theorem c2_witness : (KernelConfig.fromDict rawK3).isOk = true :=
  (c2_theorem.1 rawK3).mpr
    ⟨rfl, rfl, rfl, rfl, rfl, by decide, rfl, rfl,
     ⟨rawMeta0, rfl, rfl, rfl, rfl, rfl⟩, ⟨rawStyle0, rfl, rfl, rfl, rfl⟩⟩

/-- Claim C3, counterexample.  The claim says every record's canonical name
and aliases resolve to the identical record instance in any successfully
built registry.  Loading `[rawK1, rawK2]` succeeds, the first record is
gettable under its canonical name `"k1"` (identity tag 0) and declares the
alias `"shared"`, yet `get "shared"` returns the second record (identity
tag 1) — a different instance. -/
theorem c3_counterexample :
    loadKernels catalogX [rawK1, rawK2] = .ok regC ∧
    (regC.get "k1").map Prod.fst = some 0 ∧
    (regC.get "k1").map (fun p => p.2.aliases) = some ["shared"] ∧
    (regC.get "shared").map Prod.fst = some 1 :=
  ⟨rfl, rfl, rfl, rfl⟩

/-- Claim C3, amended.  Provided the canonical names and aliases of all
records in the batch are pairwise distinct, every record's canonical name
and every one of its aliases resolve, in the successfully built registry, to
the identical record instance (same identity tag, same record, hence the
same stable canonical name). -/
theorem c3_theorem (operators : List (String × OperatorSpec)) (datas : List RawKernel)
    (ks : List AGIKernel) (h : resolveAll operators datas = .ok ks)
    (hnd : (ks.flatMap kernelKeys).Nodup)
    (j : Nat) (kernel : AGIKernel) (hj : ks[j]? = some kernel) :
    ∃ reg, loadKernels operators datas = .ok reg ∧
      reg.get kernel.canonical_name = some (j, kernel) ∧
      ∀ aliasKey ∈ kernel.aliases, reg.get aliasKey = some (j, kernel) := by
  refine ⟨{ kernels := insertAllKernels ks 0 [], operators }, ?_, ?_, ?_⟩
  · unfold loadKernels
    rw [buildKernels_of_resolveAll_ok operators datas ks 0 [] h, exceptBind_ok, exceptPure]
  · unfold KernelRegistry.get
    have := dictGet_insertAllKernels_last ks j kernel kernel.canonical_name 0 [] hj
      (List.mem_cons_self _ _)
      (fun j' kernel' hlt hget =>
        kernelKeys_nodup_disjoint ks hnd j j' kernel kernel' (by omega) hj hget
          kernel.canonical_name (List.mem_cons_self _ _))
    simpa using this
  · intro aliasKey hmem
    unfold KernelRegistry.get
    have hkey : aliasKey ∈ kernelKeys kernel := List.mem_cons_of_mem _ hmem
    have := dictGet_insertAllKernels_last ks j kernel aliasKey 0 [] hj hkey
      (fun j' kernel' hlt hget =>
        kernelKeys_nodup_disjoint ks hnd j j' kernel kernel' (by omega) hj hget
          aliasKey hkey)
    simpa using this

/-- Witness for C3's amended theorem on the collision-free batch
`[rawK3, rawK2]`: canonical name and alias of the first record both return
the tag-0 instance. -/
theorem c3_witness :
    ∃ reg, loadKernels catalogX [rawK3, rawK2] = .ok reg ∧
      reg.get kernelA3.canonical_name = some (0, kernelA3) ∧
      ∀ aliasKey ∈ kernelA3.aliases, reg.get aliasKey = some (0, kernelA3) :=
  c3_theorem catalogX [rawK3, rawK2] [kernelA3, kernelB] rfl (by decide) 0 kernelA3 rfl

/-- Claim C4, confirmed.  A record whose operator list names a symbol absent
from the catalog (all earlier references resolving) fails its resolution
with `UnknownOperator(symbol)`; no partially resolved record exists, and a
batch containing such a record never produces a registry — `load` returns no
`ok` value, so no key from that batch is gettable. -/
theorem c4_theorem (operators : List (String × OperatorSpec)) (datas : List RawKernel)
    (j : Nat) (d : RawKernel) (config : KernelConfig) (i : Nat)
    (ref : KernelOperatorRef)
    (hj : datas[j]? = some d)
    (hparse : KernelConfig.fromDict d = .ok config)
    (hi : config.operators[i]? = some ref)
    (hnone : dictGet operators ref.symbol = none)
    (hearlier : ∀ i' ref', i' < i → config.operators[i']? = some ref' →
      (dictGet operators ref'.symbol).isSome = true) :
    config.toKernel operators = .error (.unknownOperator ref.symbol) ∧
    ∀ reg, loadKernels operators datas ≠ .ok reg := by
  have htk := toKernel_error_of_first config operators i ref hi hnone hearlier
  refine ⟨htk, ?_⟩
  intro reg hok
  have hres : resolveDef operators d = .error (.unknownOperator ref.symbol) := by
    simp only [resolveDef, hparse, exceptBind_ok, htk]
  have hnotok := resolveAll_not_ok_of_mem operators datas d _ (List.getElem?_mem hj) hres
  have hisok : (loadKernels operators datas).isOk = true := by rw [hok]; rfl
  rw [loadKernels_isOk_iff, hnotok] at hisok
  exact Bool.noConfusion hisok

/-- Witness for C4 at the batch `[rawBad]`, whose single record references
the unknown symbol `"Y"`: resolution reports `UnknownOperator("Y")` and the
load produces no registry. -/
theorem c4_witness :
    configBad.toKernel catalogX = .error (.unknownOperator "Y") ∧
    (loadKernels catalogX [rawBad]).isOk = false := by
  have h := c4_theorem catalogX [rawBad] 0 rawBad configBad 0
    { symbol := "Y", nuance := none } rfl rfl rfl rfl
    (by intro i' ref' hlt _; exact absurd hlt (by omega))
  refine ⟨h.1, ?_⟩
  cases hl : loadKernels catalogX [rawBad] with
  | ok reg => exact absurd hl (h.2 reg)
  | error e => rfl

/-- Claim C5, counterexample.  The claim says every rendering shows only the
effect when the nuance is textually identical to it.  `describe` (used by
the long-form rendering) indeed suppresses the duplicate, but the console
ritual-card entry for the same operator prints the nuance line anyway. -/
theorem c5_counterexample :
    opDup.describe = "X Foo: Does foo" ∧
    renderOperatorEntry opDup = "    - X Foo\n      ↳ Does foo\n      ↝ Does foo" ∧
    (qhcOperatorLines 1 opDup)[0]? =
      some "    ✺✺ ⧈ Operator_1: X = \x27Foo\x27 🌐[7.8366 Hz] // Does foo" :=
  ⟨rfl, rfl, rfl⟩

/-- Claim C5, amended.  `describe` (hence the long-form rendering) shows the
nuance distinctly separated exactly when it is present, non-empty after
stripping whitespace, and differs from the stripped effect; the console card
entry and the symbolic operator line instead show the nuance exactly when it
is present and non-empty, even when textually identical to the effect. -/
theorem c5_theorem (op : OperatorInstance) (idx : Nat) :
    (op.describe ≠ op.symbol ++ " " ++ op.name ++ ": " ++ op.effect ↔
      ∃ n, op.nuance = some n ∧ pyStrip n ≠ "" ∧ pyStrip n ≠ pyStrip op.effect) ∧
    (renderOperatorEntry op ≠
        "    - " ++ op.symbol ++ " " ++ op.name ++ "\n      ↳ " ++ op.effect ↔
      ∃ n, op.nuance = some n ∧ n ≠ "") ∧
    ((qhcOperatorLines idx op)[0]? ≠
        some ("    ✺✺ ⧈ Operator_" ++ toString idx ++ ": " ++ op.symbol ++ " = \x27" ++
          op.name ++ "\x27 🌐[7.8366 Hz]") ↔
      ∃ n, op.nuance = some n ∧ n ≠ "") :=
  ⟨describe_ne_iff op, renderOperatorEntry_ne_iff op, qhcOperatorLine_ne_iff idx op⟩

/-- Claim C6, counterexample.  The claim says the long-form execution section
numbers the i-th step with number i.  For `kernel0` (steps `alpha`, `beta`)
the second execution line of the markdown rendering is `"1. beta"`, and no
line `"2. beta"` occurs anywhere in it. -/
theorem c6_counterexample :
    (markdownSections kernel0)[12]? = some "1. beta" ∧
    "2. beta" ∉ markdownSections kernel0 :=
  ⟨rfl, by decide⟩

/-- Claim C6, amended.  In the markdown (long-form) rendering every
execution step is prefixed with the literal ordinal `"1. "` (delegating
renumbering to markdown list semantics), while the console ritual-card
rendering numbers the i-th step with i (starting at 1). -/
theorem c6_theorem (k : AGIKernel) (i : Nat) (step : String)
    (h : k.execution_steps[i]? = some step) :
    (markdownSections k)[10 + k.operators.length + i]? = some ("1. " ++ step) ∧
    (consoleExecutionLines k)[i]? =
      some ("    " ++ toString (i + 1) ++ ". " ++ step) :=
  ⟨markdown_execution_line k i step h, consoleExecutionLines_getElem k i step h⟩

/-- Witness for C6's amended theorem at `kernel0` and its second step. -/
theorem c6_witness :
    (markdownSections kernel0)[10 + kernel0.operators.length + 1]? =
      some ("1. " ++ "beta") ∧
    (consoleExecutionLines kernel0)[1]? =
      some ("    " ++ toString (1 + 1) ++ ". " ++ "beta") :=
  c6_theorem kernel0 1 "beta" rfl

/-- Claim C7, confirmed.  The activation bundle is a lossless projection:
decoding it field by field reconstructs the record exactly (including nested
metadata, style, the expanded operators and the optional theme), and the
constant universal message sits under the fixed key `"universal_message"`. -/
theorem c7_theorem (k : AGIKernel) :
    kernelOfBundle k.toActivationBundle = some k ∧
    bundleEntry k.toActivationBundle "universal_message" =
      some (.str UNIVERSAL_ACTIVATION_MESSAGE) :=
  ⟨kernelOfBundle_encode k, rfl⟩

/-- Claim C8, counterexample.  The claim says `render` succeeds exactly on
`{bundle, longform, symbolic}`.  The code's accepted format strings are
`{json, markdown, rich, qhc}`: requesting `"bundle"` raises, while the
fourth name `"rich"` (outside any three-element supported set) succeeds. -/
theorem c8_counterexample :
    kernel0.activate "bundle" = .error ("Unsupported activation format: " ++ "bundle") ∧
    (kernel0.activate "rich").isOk = true :=
  ⟨rfl, rfl⟩

/-- Claim C8, amended.  `activate` succeeds exactly for the four format
strings `"json"`, `"markdown"`, `"rich"`, `"qhc"` (bundle, long-form with
its extra alias, symbolic) and fails for every other string with
`ValueError("Unsupported activation format: name")`; it is a pure function
of the record, with no fallback and no effect on any registry. -/
theorem c8_theorem (k : AGIKernel) (format : String) :
    ((k.activate format).isOk = true ↔
      format ∈ (["json", "markdown", "rich", "qhc"] : List String)) ∧
    (format ∉ (["json", "markdown", "rich", "qhc"] : List String) →
      k.activate format = .error ("Unsupported activation format: " ++ format)) :=
  ⟨activate_isOk_iff k format, activate_unsupported k format⟩

/-- Witness for C8's amended theorem at the unrecognized format `"weird"`. -/
theorem c8_witness :
    ((kernel0.activate "weird").isOk = true ↔
      "weird" ∈ (["json", "markdown", "rich", "qhc"] : List String)) ∧
    kernel0.activate "weird" = .error ("Unsupported activation format: " ++ "weird") := by
  have h := c8_theorem kernel0 "weird"
  exact ⟨h.1, h.2 (by decide)⟩

/-- Claim C9, counterexample.  The claim says `listCanonical` always has one
entry per distinct canonical name fed in.  Registering `potion2` (whose
alias equals `potion1`'s canonical name) after `potion1` silently evicts
`potion1`, so the listing has one entry although two distinct canonical
names were fed in. -/
theorem c9_counterexample :
    listCanonicalKernels (buildPotionRegistry [potion1, potion2]) = [potion2] ∧
    potion1.canonical_name ≠ potion2.canonical_name :=
  ⟨rfl, by decide⟩

/-- Claim C9, amended.  Provided the canonical names and aliases across the
registered kernels are pairwise distinct, `list_canonical_kernels` returns
exactly the registered kernels once each, in first-registered order — in
particular its length equals the number of kernels fed in, regardless of
alias counts. -/
theorem c9_theorem (ks : List PotionKernel) (hnd : (ks.flatMap potionKeys).Nodup) :
    listCanonicalKernels (buildPotionRegistry ks) = ks ∧
    (listCanonicalKernels (buildPotionRegistry ks)).length = ks.length := by
  have h := listCanonicalKernels_of_nodup ks hnd
  exact ⟨h, by rw [h]⟩

/-- Witness for C9's amended theorem on the collision-free pair
`[potion1, potion3]`. -/
theorem c9_witness :
    listCanonicalKernels (buildPotionRegistry [potion1, potion3]) = [potion1, potion3] ∧
    (listCanonicalKernels (buildPotionRegistry [potion1, potion3])).length =
      ([potion1, potion3] : List PotionKernel).length :=
  c9_theorem [potion1, potion3] (by decide)

/-- Claim C10, confirmed.  The format names `"markdown"` and `"rich"` are
aliases: `activate` dispatches both to the same long-form markdown
rendering, so their outputs are identical for every record. -/
theorem c10_theorem (k : AGIKernel) :
    k.activate "markdown" = k.activate "rich" := rfl

end ParadoxicalVoodoo
